import Mathlib

/-!
Shallow embedding of the Eremos Signal Correlation & Analytics Engine:
`AgentCoordinator` (src/utils/signal.ts) and `SignalAnalytics`
(analytics module).  Timestamps are modelled as integer milliseconds
(the code stores ISO strings and compares their parsed epoch values);
JS numbers used for confidences and averages are modelled as exact
rationals.
-/

namespace Eremos

/-- A signal record (src/types/signal.ts).  `timestamp` is the parsed
epoch-milliseconds value of the stored ISO string; `metadataPattern` is
the projection `metadata?.pattern` used by the analytics module. -/
structure Signal where
  type : String
  hash : String
  timestamp : Int
  source : String
  agent : Option String := none
  confidence : Option ℚ := none
  metadataPattern : Option String := none
deriving DecidableEq

/-- A correlation rule of the coordinator.  `action` is the optional
callback run when the rule produces a composite. -/
structure CorrelationRule where
  id : String
  name : Option String := none
  requiredSignals : List String
  timeWindow : Int
  minConfidence : ℚ
  outputPattern : String
  action : Option (List Signal → Unit) := none

/-- A composite signal produced by `checkCorrelations`.  The metadata
object `\x7b ruleId, triggerSignals \x7d` is flattened into the two
`meta` fields. -/
structure CompositeSignal where
  type : String
  confidence : ℚ
  contributingAgents : List String
  pattern : String
  timestamp : Int
  metaRuleId : String
  metaTriggerSignals : List (String × String)
deriving DecidableEq

/-- Default coordinator buffer size (`maxBufferSize || 1000`). -/
def coordinatorDefaultBufferSize : Nat := 1000

/-- Insertion-order deduplication, as performed by the JS idiom
`[...new Set(xs)]` (keeps the first occurrence of each element). -/
def dedupFirst (l : List String) : List String :=
  l.foldl (fun acc x => if x ∈ acc then acc else acc ++ [x]) []

/-- `AgentCoordinator` buffer maintenance shared by `registerSignal` and
`processSignal`: push, then shift once when the length exceeds the
configured bound. -/
def pushCapped (cap : Nat) (buffer : List Signal) (s : Signal) : List Signal :=
  let b := buffer ++ [s]
  if b.length > cap then b.drop 1 else b

/-- The signals of the buffer whose timestamp passes the window test
`(now - signalTime) <= window` (used by `correlateSignals` and
`getActiveSignals`). -/
def recentWithin (buffer : List Signal) (now window : Int) : List Signal :=
  buffer.filter (fun s => decide (now - s.timestamp ≤ window))

/-- `AgentCoordinator.correlateSignals`: every required type occurs among
the signals inside the window. -/
def correlateSignals (buffer : List Signal) (now : Int)
    (signalTypes : List String) (timeWindow : Int) : Bool :=
  let recentSignals := recentWithin buffer now timeWindow
  signalTypes.all (fun t => recentSignals.any (fun s => s.type = t))

/-- `AgentCoordinator.getRelevantSignals`: signals inside the window whose
type is among the required types. -/
def getRelevantSignals (buffer : List Signal) (now : Int)
    (signalTypes : List String) (timeWindow : Int) : List Signal :=
  buffer.filter (fun s =>
    decide (now - s.timestamp ≤ timeWindow) && signalTypes.contains s.type)

/-- `AgentCoordinator.calculateAverageConfidence`: 0 on the empty list,
otherwise the sum of `confidence || 0` divided by the length. -/
def calculateAverageConfidence (signals : List Signal) : ℚ :=
  if signals.length = 0 then 0
  else (signals.foldl (fun acc s => acc + s.confidence.getD 0) 0) / signals.length

/-- The composite literal built in the body of
`AgentCoordinator.checkCorrelations` and stamped by
`emitCompositeSignal` (10% correlation boost capped at 1.0, first
occurrences of the contributing sources, trigger metadata). -/
def compositeFor (buffer : List Signal) (now : Int)
    (rule : CorrelationRule) : CompositeSignal :=
  let relevantSignals := getRelevantSignals buffer now rule.requiredSignals rule.timeWindow
  let avgConfidence := calculateAverageConfidence relevantSignals
  { type := rule.outputPattern
    confidence := min (avgConfidence * 1.1) 1
    contributingAgents := dedupFirst (relevantSignals.map (fun s => s.source))
    pattern := rule.id
    timestamp := now
    metaRuleId := rule.id
    metaTriggerSignals := relevantSignals.map (fun s => (s.type, s.hash)) }

/-- The per-rule step of `AgentCoordinator.checkCorrelations`: when the
rule's required types are covered inside its window and the average
confidence of the relevant signals reaches the rule's minimum, the
composite is produced. -/
def ruleComposite (buffer : List Signal) (now : Int)
    (rule : CorrelationRule) : Option CompositeSignal :=
  if correlateSignals buffer now rule.requiredSignals rule.timeWindow then
    if rule.minConfidence ≤ calculateAverageConfidence
        (getRelevantSignals buffer now rule.requiredSignals rule.timeWindow) then
      some (compositeFor buffer now rule)
    else none
  else none

/-- The `results` array accumulated by `AgentCoordinator.checkCorrelations`
over the registered rules, in registration order. -/
def checkCorrelationsList (rules : List CorrelationRule)
    (buffer : List Signal) (now : Int) : List CompositeSignal :=
  rules.filterMap (ruleComposite buffer now)

/-- Return value of `AgentCoordinator.checkCorrelations`:
`results.length > 0 ? results[0] : null`. -/
def checkCorrelations (rules : List CorrelationRule)
    (buffer : List Signal) (now : Int) : Option CompositeSignal :=
  (checkCorrelationsList rules buffer now).head?

/-- The ids of the rules whose `action` callback is executed during
`checkCorrelations` (an action runs exactly when the rule's composite is
pushed and an action is defined). -/
def actionsRun (rules : List CorrelationRule)
    (buffer : List Signal) (now : Int) : List String :=
  (rules.filter (fun r => (ruleComposite buffer now r).isSome && r.action.isSome)).map
    (fun r => r.id)

/-- `AgentCoordinator.processSignal`: push the signal (with buffer-size
maintenance) and return the result of `checkCorrelations` over the
updated buffer. -/
def processSignal (cap : Nat) (rules : List CorrelationRule)
    (buffer : List Signal) (now : Int) (s : Signal) :
    List Signal × Option CompositeSignal :=
  let b := pushCapped cap buffer s
  (b, checkCorrelations rules b now)

/-! ## SignalAnalytics -/

/-- Alert priority tags. -/
inductive AlertPriority
  | low
  | medium
  | high
  | critical
deriving DecidableEq

/-- An alert rule of `SignalAnalytics`. -/
structure AlertRule where
  id : String
  name : String
  condition : Signal → Bool
  priority : AlertPriority
  cooldown : Int
  enabled : Bool
  description : String

/-- The record returned by `SignalAnalytics.triggerAlert`. -/
structure TriggeredAlert where
  ruleId : String
  ruleName : String
  priority : AlertPriority
  signal : Signal
  triggeredAt : Int
deriving DecidableEq

/-- The alert record built by `triggerAlert` for a rule and signal. -/
def alertOf (r : AlertRule) (sig : Signal) (now : Int) : TriggeredAlert :=
  { ruleId := r.id
    ruleName := r.name
    priority := r.priority
    signal := sig
    triggeredAt := now }

/-- The `lastAlerts` record: a partial map from rule id to the timestamp
of the rule's last firing. -/
def LastAlerts : Type := String → Option Int

/-- The loop of `SignalAnalytics.checkAlerts` over the rule list,
threading the `lastAlerts` record (which the loop body mutates when a
rule fires).  A missing entry reads as 0 (`lastAlerts[rule.id] || 0`). -/
def checkAlertsGo (now : Int) (sig : Signal) :
    List AlertRule → LastAlerts → List TriggeredAlert × LastAlerts
  | [], la => ([], la)
  | rule :: rest, la =>
    if rule.enabled = false then checkAlertsGo now sig rest la
    else
      let lastAlert := (la rule.id).getD 0
      if now - lastAlert < rule.cooldown then checkAlertsGo now sig rest la
      else if rule.condition sig then
        let la2 : LastAlerts := fun k => if k = rule.id then some now else la k
        let rec2 := checkAlertsGo now sig rest la2
        (alertOf rule sig now :: rec2.1, rec2.2)
      else checkAlertsGo now sig rest la

/-- Whether `checkAlerts` at time `now` fires a given rule against a
signal under a given `lastAlerts` record: the rule is enabled, off
cooldown, and its condition holds. -/
def firesB (la : LastAlerts) (now : Int) (sig : Signal) (r : AlertRule) : Bool :=
  r.enabled && !(decide (now - (la r.id).getD 0 < r.cooldown)) && r.condition sig

/-- The default analytics history bound (`maxSignals = 10000`). -/
def analyticsDefaultMaxSignals : Nat := 10000

/-- The mutable state of a `SignalAnalytics` instance. -/
structure AnalyticsState where
  signals : List Signal
  alertRules : List AlertRule
  lastAlerts : LastAlerts
  maxSignals : Nat

/-- `SignalAnalytics.addSignal`: push the signal, shift once when over
the history bound, then run `checkAlerts` and return the triggered
alerts. -/
def addSignal (st : AnalyticsState) (now : Int) (sig : Signal) :
    AnalyticsState × List TriggeredAlert :=
  let signals2 := pushCapped st.maxSignals st.signals sig
  let rec2 := checkAlertsGo now sig st.alertRules st.lastAlerts
  ({ st with signals := signals2, lastAlerts := rec2.2 }, rec2.1)

/-- `SignalAnalytics.addAlertRule`: append the rule. -/
def addAlertRule (st : AnalyticsState) (r : AlertRule) : AnalyticsState :=
  { st with alertRules := st.alertRules ++ [r] }

/-- `SignalAnalytics.removeAlertRule`: keep the rules whose id differs
from the argument and delete the argument's `lastAlerts` entry. -/
def removeAlertRule (st : AnalyticsState) (ruleId : String) : AnalyticsState :=
  { st with
      alertRules := st.alertRules.filter (fun r => r.id ≠ ruleId)
      lastAlerts := fun k => if k = ruleId then none else st.lastAlerts k }

/-! ## SignalAnalytics.getMetrics -/

/-- The agent key used by `getMetrics`: `signal.agent || signal.source`
(an absent or empty `agent` string falls back to `source`). -/
def agentOf (s : Signal) : String :=
  match s.agent with
  | some a => if a = "" then s.source else a
  | none => s.source

/-- The pattern key used by `getMetrics`:
`signal.metadata?.pattern || signal.type`. -/
def patternOf (s : Signal) : String :=
  match s.metadataPattern with
  | some p => if p = "" then s.type else p
  | none => s.type

/-- Increment a counting record at one key
(`record[key] = (record[key] || 0) + 1`). -/
def bump (f : String → Nat) (key : String) : String → Nat :=
  fun x => if x = key then f key + 1 else f x

/-- Per-agent entry of `agentMetrics`. -/
structure AgentMetric where
  count : Nat
  averageConfidence : ℚ
deriving DecidableEq

/-- Per-pattern accumulator of the `patterns` record. -/
structure PatternAccum where
  count : Nat
  totalConfidence : ℚ
deriving DecidableEq

/-- The confidence distribution buckets. -/
structure ConfDist where
  low : Nat
  medium : Nat
  high : Nat
deriving DecidableEq

/-- The accumulator mutated by the `relevantSignals.forEach` loop of
`getMetrics`. -/
structure MetricsAccum where
  signalsByType : String → Nat
  signalsByAgent : String → Nat
  signalsBySource : String → Nat
  agentMetrics : String → AgentMetric
  patterns : String → PatternAccum
  dist : ConfDist
  totalConfidence : ℚ
  confidenceCount : Nat

/-- The empty `getMetrics` accumulator. -/
def initAccum : MetricsAccum :=
  { signalsByType := fun _ => 0
    signalsByAgent := fun _ => 0
    signalsBySource := fun _ => 0
    agentMetrics := fun _ => { count := 0, averageConfidence := 0 }
    patterns := fun _ => { count := 0, totalConfidence := 0 }
    dist := { low := 0, medium := 0, high := 0 }
    totalConfidence := 0
    confidenceCount := 0 }

/-- One iteration of the `relevantSignals.forEach` loop of `getMetrics`:
count by type/agent/source, bump the agent count, then (for scored
signals) accumulate the confidence sum and count, the distribution
bucket and the incremental agent average, and finally the pattern
counters. -/
def metricsStep (acc : MetricsAccum) (s : Signal) : MetricsAccum :=
  let a := agentOf s
  let acc1 : MetricsAccum :=
    { acc with
        signalsByType := bump acc.signalsByType s.type
        signalsByAgent := bump acc.signalsByAgent a
        signalsBySource := bump acc.signalsBySource s.source
        agentMetrics := fun k =>
          if k = a then
            { acc.agentMetrics a with count := (acc.agentMetrics a).count + 1 }
          else acc.agentMetrics k }
  let acc2 : MetricsAccum :=
    match s.confidence with
    | some c =>
      let am := acc1.agentMetrics a
      let currentTotal := am.averageConfidence * ((am.count - 1 : Nat) : ℚ)
      { acc1 with
          totalConfidence := acc1.totalConfidence + c
          confidenceCount := acc1.confidenceCount + 1
          dist :=
            if (0.8 : ℚ) ≤ c then { acc1.dist with high := acc1.dist.high + 1 }
            else if (0.7 : ℚ) ≤ c then { acc1.dist with medium := acc1.dist.medium + 1 }
            else { acc1.dist with low := acc1.dist.low + 1 }
          agentMetrics := fun k =>
            if k = a then
              { am with averageConfidence := (currentTotal + c) / (am.count : ℚ) }
            else acc1.agentMetrics k }
    | none => acc1
  let p := patternOf s
  { acc2 with
      patterns := fun k =>
        if k = p then
          { count := (acc2.patterns p).count + 1
            totalConfidence := (acc2.patterns p).totalConfidence + s.confidence.getD 0 }
        else acc2.patterns k }

/-- The window used by `getMetrics`:
`timeWindow || 24 * 60 * 60 * 1000`. -/
def windowMsOf (timeWindow : Option Int) : Int :=
  match timeWindow with
  | some w => if w = 0 then 86400000 else w
  | none => 86400000

/-- The signals of the analytics history inside the metrics window
(`(now - signalTime) <= windowMs`). -/
def relevantWithin (signals : List Signal) (now windowMs : Int) : List Signal :=
  signals.filter (fun s => decide (now - s.timestamp ≤ windowMs))

/-- Stable insertion of a pattern entry into a list sorted by count
descending (models the stable JS `sort((a, b) => b.count - a.count)`). -/
def insertByCountDesc (x : String × Nat × ℚ) :
    List (String × Nat × ℚ) → List (String × Nat × ℚ)
  | [] => [x]
  | y :: ys => if y.2.1 ≤ x.2.1 then x :: y :: ys
               else y :: insertByCountDesc x ys

/-- Stable sort by count descending. -/
def sortByCountDesc : List (String × Nat × ℚ) → List (String × Nat × ℚ)
  | [] => []
  | x :: xs => insertByCountDesc x (sortByCountDesc xs)

/-- The snapshot returned by `SignalAnalytics.getMetrics`.  The JS
records are functions from key to value; `topPatterns` entries are
`(pattern, count, mean confidence)`; the time range is returned as the
parsed timestamps of its ISO endpoints. -/
structure SignalMetrics where
  totalSignals : Nat
  signalsByType : String → Nat
  signalsByAgent : String → Nat
  signalsBySource : String → Nat
  averageConfidence : ℚ
  signalsPerHour : ℚ
  signalRate : ℚ
  dist : ConfDist
  agentMetrics : String → AgentMetric
  averageSignalRate : ℚ
  topPatterns : List (String × Nat × ℚ)
  timeRangeStart : Int
  timeRangeEnd : Int

/-- `SignalAnalytics.getMetrics` over a history at a given current time
and optional window. -/
def getMetrics (signals : List Signal) (now : Int)
    (timeWindow : Option Int) : SignalMetrics :=
  let windowMs := windowMsOf timeWindow
  let relevantSignals := relevantWithin signals now windowMs
  let acc := relevantSignals.foldl metricsStep initAccum
  let patternKeys := dedupFirst (relevantSignals.map patternOf)
  let entries := patternKeys.map (fun p =>
    (p, (acc.patterns p).count,
      if 0 < (acc.patterns p).count then
        (acc.patterns p).totalConfidence / ((acc.patterns p).count : ℚ)
      else 0))
  let hoursInWindow : ℚ := (windowMs : ℚ) / (1000 * 60 * 60)
  let signalRate : ℚ := (relevantSignals.length : ℚ) / ((windowMs : ℚ) / 1000)
  { totalSignals := relevantSignals.length
    signalsByType := acc.signalsByType
    signalsByAgent := acc.signalsByAgent
    signalsBySource := acc.signalsBySource
    averageConfidence :=
      if 0 < acc.confidenceCount then acc.totalConfidence / (acc.confidenceCount : ℚ)
      else 0
    signalsPerHour := (relevantSignals.length : ℚ) / hoursInWindow
    signalRate := signalRate
    dist := acc.dist
    agentMetrics := acc.agentMetrics
    averageSignalRate := signalRate * 60
    topPatterns := (sortByCountDesc entries).take 10
    timeRangeStart := ((relevantSignals.head?).map (fun s => s.timestamp)).getD now
    timeRangeEnd := ((relevantSignals.getLast?).map (fun s => s.timestamp)).getD now }

/-! ## Sample fixtures (concrete inputs used by witnesses) -/

/-- A kind-A signal with confidence 0.9. -/
def sampleA : Signal :=
  { type := "A", hash := "hA", timestamp := 100, source := "agentA", confidence := some (9/10) }

/-- A second kind-A signal with confidence 1. -/
def sampleA2 : Signal :=
  { type := "A", hash := "hA2", timestamp := 120, source := "agentA2", confidence := some 1 }

/-- A kind-B signal with confidence 0.9. -/
def sampleB : Signal :=
  { type := "B", hash := "hB", timestamp := 200, source := "agentB", confidence := some (9/10) }

/-- An unscored signal (no confidence). -/
def sampleUnscored : Signal :=
  { type := "C", hash := "hC", timestamp := 150, source := "agentC" }

/-- A signal far older than any window used in the witnesses. -/
def sampleOld : Signal :=
  { type := "A", hash := "hO", timestamp := -1000000, source := "S" }

/-- A signal whose timestamp lies in the future of the witnesses'
current time 1000. -/
def sampleFuture : Signal :=
  { type := "A", hash := "hF", timestamp := 1500, source := "S" }

/-- A signal with the out-of-range confidence 1.5. -/
def badSignal : Signal :=
  { type := "launch_detected", hash := "h0", timestamp := 0, source := "A",
    confidence := some (3/2) }

/-- A two-kind correlation rule used by the witnesses. -/
def sampleRule : CorrelationRule :=
  { id := "r1", requiredSignals := ["A", "B"], timeWindow := 30000,
    minConfidence := 8/10, outputPattern := "combo" }

/-- A signal qualifying for `sampleAlertRule`. -/
def sampleLaunch : Signal :=
  { type := "launch_detected", hash := "hL", timestamp := 0, source := "A" }

/-- An alert rule used by the witnesses (fires on `launch_detected`). -/
def sampleAlertRule : AlertRule :=
  { id := "a1", name := "launch", condition := fun s => s.type = "launch_detected",
    priority := AlertPriority.high, cooldown := 30000, enabled := true,
    description := "fires on launch_detected" }

/-- A fresh analytics state with no signals, no rules and no cooldown
entries. -/
def emptyAnalytics : AnalyticsState :=
  { signals := [], alertRules := [], lastAlerts := fun _ => none,
    maxSignals := analyticsDefaultMaxSignals }

/-- An analytics state holding `sampleAlertRule` with a recent cooldown
entry for its id. -/
def sampleAnalytics : AnalyticsState :=
  { signals := [], alertRules := [sampleAlertRule],
    lastAlerts := fun k => if k = "a1" then some 999999 else none,
    maxSignals := analyticsDefaultMaxSignals }

/-- Three signals, for exercising a capacity-2 buffer. -/
def sampleSigs3 : List Signal := [sampleA, sampleB, sampleUnscored]

end Eremos

namespace Eremos

/-! ## Theorems -/

/-- Helper for C3: starting from a buffer within capacity, folding the
push-then-shift insertion over a list keeps exactly the trailing `cap`
elements of the concatenation. -/
theorem foldl_pushCapped (cap : Nat) :
    ∀ (l b : List Signal), b.length ≤ cap →
      List.foldl (pushCapped cap) b l = (b ++ l).drop (b.length + l.length - cap) := by
  intro l
  induction l with
  | nil =>
    intro b hb
    simp only [List.foldl_nil, List.append_nil, List.length_nil, Nat.add_zero,
      Nat.sub_eq_zero_of_le hb, List.drop_zero]
  | cons s l ih =>
    intro b hb
    rw [List.foldl_cons]
    by_cases hc : cap < b.length + 1
    · have h2 : pushCapped cap b s = (b ++ [s]).drop 1 := by
        simp only [pushCapped]
        rw [if_pos (by simp; omega)]
      have hlen2 : (pushCapped cap b s).length = cap := by
        rw [h2]
        simp
        omega
      rw [ih (pushCapped cap b s) (le_of_eq hlen2), hlen2, h2]
      have hd : ((b ++ [s]).drop 1) ++ l = ((b ++ [s]) ++ l).drop 1 :=
        (List.drop_append_of_le_length (by simp)).symm
      rw [hd, List.drop_drop]
      have hset : (b ++ [s]) ++ l = b ++ s :: l := by simp
      rw [hset]
      congr 1
      simp
      omega
    · have h2 : pushCapped cap b s = b ++ [s] := by
        simp only [pushCapped]
        rw [if_neg (by simp; omega)]
      have hlen : (b ++ [s]).length ≤ cap := by simp; omega
      rw [h2, ih _ hlen]
      have hset : (b ++ [s]) ++ l = b ++ s :: l := by simp
      rw [hset]
      congr 1
      simp
      omega

/-- C3: inserting more signals than the configured capacity (via the
push-then-shift maintenance shared by `registerSignal`, `processSignal`
and `addSignal`) leaves exactly `capacity` entries, namely the most
recently inserted ones in insertion order (FIFO eviction of the
oldest), and after every individual insertion the buffer length never
exceeds the capacity. -/
theorem history_capacity_fifo (cap n : Nat) (sigs : List Signal)
    (h : cap < sigs.length) :
    List.foldl (pushCapped cap) [] sigs = sigs.drop (sigs.length - cap)
    ∧ (List.foldl (pushCapped cap) [] sigs).length = cap
    ∧ (List.foldl (pushCapped cap) [] (sigs.take n)).length ≤ cap := by
  have hmain := foldl_pushCapped cap sigs [] (by simp)
  simp only [List.nil_append, List.length_nil, Nat.zero_add] at hmain
  refine ⟨hmain, ?_, ?_⟩
  · rw [hmain, List.length_drop]
    omega
  · have ht := foldl_pushCapped cap (sigs.take n) [] (by simp)
    simp only [List.nil_append, List.length_nil, Nat.zero_add] at ht
    rw [ht, List.length_drop]
    omega

/-- Witness for C3 at capacity 2 and three concrete signals. -/
theorem history_capacity_fifo_witness :
    2 < sampleSigs3.length
    ∧ (List.foldl (pushCapped 2) [] sampleSigs3 = sampleSigs3.drop (sampleSigs3.length - 2)
       ∧ (List.foldl (pushCapped 2) [] sampleSigs3).length = 2
       ∧ (List.foldl (pushCapped 2) [] (sampleSigs3.take 1)).length ≤ 2) :=
  ⟨by decide, history_capacity_fifo 2 1 sampleSigs3 (by decide)⟩

/-- C2 (code evidence): ingesting the signal with confidence 1.5 does
not fail — it enters the analytics history (count 0 → 1) and likewise
passes the coordinator's buffer maintenance; no validation exists in
`registerSignal`/`addSignal`. -/
theorem invalid_confidence_enters_history :
    (1 : ℚ) < badSignal.confidence.getD 0
    ∧ (addSignal emptyAnalytics 0 badSignal).1.signals = [badSignal]
    ∧ pushCapped coordinatorDefaultBufferSize [] badSignal = [badSignal] := by
  refine ⟨by norm_num [badSignal, Option.getD_some], rfl, rfl⟩

/-- C4: a correlation rule matches only under set coverage of its
required kinds — if some required kind `B` has no signal of that kind
in the buffer (no matter how many signals of other kinds are present),
the coverage check is false, the rule produces no composite, and an
engine holding just that rule returns none. -/
theorem rule_requires_all_kinds (buffer : List Signal) (now : Int)
    (rule : CorrelationRule) (B : String)
    (hB : B ∈ rule.requiredSignals)
    (hbuf : ∀ s ∈ buffer, s.type ≠ B) :
    correlateSignals buffer now rule.requiredSignals rule.timeWindow = false
    ∧ ruleComposite buffer now rule = none
    ∧ checkCorrelations [rule] buffer now = none := by
  have h1 : correlateSignals buffer now rule.requiredSignals rule.timeWindow = false := by
    rw [Bool.eq_false_iff]
    intro hall
    unfold correlateSignals at hall
    rw [List.all_eq_true] at hall
    have hB2 := hall B hB
    rw [List.any_eq_true] at hB2
    obtain ⟨s, hsmem, hstype⟩ := hB2
    have hsb : s ∈ buffer := by
      unfold recentWithin at hsmem
      exact (List.mem_filter.mp hsmem).1
    exact hbuf s hsb (by simpa using hstype)
  have h2 : ruleComposite buffer now rule = none := by
    simp [ruleComposite, h1]
  refine ⟨h1, h2, ?_⟩
  simp [checkCorrelations, checkCorrelationsList, h2]

/-- Witness for C4: two kind-A signals, a rule requiring {A, B}. -/
theorem rule_requires_all_kinds_witness :
    ("B" ∈ sampleRule.requiredSignals ∧ ∀ s ∈ [sampleA, sampleA2], s.type ≠ "B")
    ∧ (correlateSignals [sampleA, sampleA2] 1000 sampleRule.requiredSignals
         sampleRule.timeWindow = false
       ∧ ruleComposite [sampleA, sampleA2] 1000 sampleRule = none
       ∧ checkCorrelations [sampleRule] [sampleA, sampleA2] 1000 = none) :=
  ⟨⟨by decide, by decide⟩,
    rule_requires_all_kinds [sampleA, sampleA2] 1000 sampleRule "B" (by decide) (by decide)⟩

/-- C7 counterexample: a buffered signal whose timestamp (1500) is later
than the query time `now = 1000` is returned by the window query — the
claim's exclusion of signals with timestamp after `now` fails on the
code, whose filter only checks `(now - signalTime) <= window`. -/
theorem window_includes_future_counterexample :
    sampleFuture.timestamp > 1000
    ∧ getRelevantSignals [sampleFuture] 1000 ["A"] 30000 = [sampleFuture]
    ∧ recentWithin [sampleFuture] 1000 30000 = [sampleFuture] := by
  decide

/-- C7 (amended): the window query returns exactly the buffered signals
with `now - timestamp ≤ window` (of a required type, for
`getRelevantSignals`), in insertion order (a sublist of the buffer);
signals older than `now - window` are excluded, but the upper bound
`now` is not enforced. -/
theorem window_query_lower_bound_only (buffer : List Signal) (now : Int)
    (types : List String) (winMs : Int) :
    (getRelevantSignals buffer now types winMs).Sublist buffer
    ∧ (∀ s, s ∈ getRelevantSignals buffer now types winMs ↔
          s ∈ buffer ∧ now - s.timestamp ≤ winMs ∧ s.type ∈ types)
    ∧ (∀ s, s ∈ recentWithin buffer now winMs ↔
          s ∈ buffer ∧ now - s.timestamp ≤ winMs)
    ∧ (∀ s ∈ buffer, s.timestamp < now - winMs →
          s ∉ getRelevantSignals buffer now types winMs) := by
  have hmem : ∀ s, s ∈ getRelevantSignals buffer now types winMs ↔
      s ∈ buffer ∧ now - s.timestamp ≤ winMs ∧ s.type ∈ types := by
    intro s
    unfold getRelevantSignals
    rw [List.mem_filter]
    simp
  refine ⟨List.filter_sublist _, hmem, ?_, ?_⟩
  · intro s
    unfold recentWithin
    rw [List.mem_filter]
    simp
  · intro s _ hlt hin
    have := ((hmem s).mp hin).2.1
    omega

/-- Witness for C7 (amended): the too-old signal is excluded. -/
theorem window_query_lower_bound_only_witness :
    (sampleOld ∈ [sampleOld] ∧ sampleOld.timestamp < 1000 - 30000)
    ∧ sampleOld ∉ getRelevantSignals [sampleOld] 1000 ["A"] 30000 :=
  ⟨⟨by decide, by decide⟩,
    (window_query_lower_bound_only [sampleOld] 1000 ["A"] 30000).2.2.2 sampleOld
      (by decide) (by decide)⟩

/-- C1: for a registered rule whose required types are covered inside
its window, with `avg` the mean confidence of the collected in-window
signals of required types (missing confidence counted 0): if
`minConfidence ≤ avg` a composite for the rule is produced among the
results of `checkCorrelations`, with confidence `min (avg * 1.1) 1`;
if `avg < minConfidence` the rule produces no composite. -/
theorem correlation_threshold_and_boost (rules : List CorrelationRule)
    (rule : CorrelationRule) (buffer : List Signal) (now : Int)
    (hr : rule ∈ rules)
    (hcov : correlateSignals buffer now rule.requiredSignals rule.timeWindow = true) :
    (rule.minConfidence ≤ calculateAverageConfidence
        (getRelevantSignals buffer now rule.requiredSignals rule.timeWindow) →
      ∃ c ∈ checkCorrelationsList rules buffer now,
        c.pattern = rule.id ∧ c.type = rule.outputPattern
        ∧ c.confidence = min (calculateAverageConfidence
            (getRelevantSignals buffer now rule.requiredSignals rule.timeWindow) * 1.1) 1)
    ∧ (calculateAverageConfidence
        (getRelevantSignals buffer now rule.requiredSignals rule.timeWindow)
        < rule.minConfidence →
      ruleComposite buffer now rule = none) := by
  constructor
  · intro hge
    have hc : ruleComposite buffer now rule = some (compositeFor buffer now rule) := by
      unfold ruleComposite
      rw [if_pos hcov, if_pos hge]
    refine ⟨compositeFor buffer now rule, ?_, rfl, rfl, rfl⟩
    exact List.mem_filterMap.mpr ⟨rule, hr, hc⟩
  · intro hlt
    unfold ruleComposite
    rw [if_pos hcov, if_neg (not_le.mpr hlt)]

/-- Witness for C1: signals A (0.9) and B (0.9) inside the 30s window of
a rule requiring both at minimum 0.8. -/
theorem correlation_threshold_and_boost_witness :
    (sampleRule ∈ [sampleRule]
     ∧ correlateSignals [sampleA, sampleB] 1000 sampleRule.requiredSignals
         sampleRule.timeWindow = true)
    ∧ ((sampleRule.minConfidence ≤ calculateAverageConfidence
          (getRelevantSignals [sampleA, sampleB] 1000 sampleRule.requiredSignals
            sampleRule.timeWindow) →
        ∃ c ∈ checkCorrelationsList [sampleRule] [sampleA, sampleB] 1000,
          c.pattern = sampleRule.id ∧ c.type = sampleRule.outputPattern
          ∧ c.confidence = min (calculateAverageConfidence
              (getRelevantSignals [sampleA, sampleB] 1000 sampleRule.requiredSignals
                sampleRule.timeWindow) * 1.1) 1)
       ∧ (calculateAverageConfidence
            (getRelevantSignals [sampleA, sampleB] 1000 sampleRule.requiredSignals
              sampleRule.timeWindow) < sampleRule.minConfidence →
          ruleComposite [sampleA, sampleB] 1000 sampleRule = none)) :=
  ⟨⟨List.mem_singleton.mpr rfl, rfl⟩,
    correlation_threshold_and_boost [sampleRule] sampleRule [sampleA, sampleB] 1000
      (List.mem_singleton.mpr rfl) rfl⟩

/-- C6: only the first matching rule in registration order determines
the value returned by `checkCorrelations` (and hence `processSignal`);
later matching rules are still evaluated — their composites appear in
the evaluated results and their actions run — but are not returned, and
when no rule matches the call returns none. -/
theorem first_match_only_returned (buffer : List Signal) (now : Int)
    (pre post : List CorrelationRule) (rule : CorrelationRule) (c : CompositeSignal)
    (hpre : ∀ r ∈ pre, ruleComposite buffer now r = none)
    (hr : ruleComposite buffer now rule = some c) :
    checkCorrelations (pre ++ rule :: post) buffer now = some c
    ∧ (∀ r ∈ post, ∀ c2, ruleComposite buffer now r = some c2 →
        c2 ∈ checkCorrelationsList (pre ++ rule :: post) buffer now)
    ∧ (∀ r ∈ post, (ruleComposite buffer now r).isSome = true →
        r.action.isSome = true →
        r.id ∈ actionsRun (pre ++ rule :: post) buffer now)
    ∧ (∀ rulesAll : List CorrelationRule,
        (∀ r ∈ rulesAll, ruleComposite buffer now r = none) →
        checkCorrelations rulesAll buffer now = none) := by
  have hprenil : pre.filterMap (ruleComposite buffer now) = [] :=
    List.filterMap_eq_nil_iff.mpr hpre
  refine ⟨?_, ?_, ?_, ?_⟩
  · unfold checkCorrelations checkCorrelationsList
    rw [List.filterMap_append, hprenil, List.nil_append, List.filterMap_cons, hr]
    rfl
  · intro r hrp c2 hc2
    exact List.mem_filterMap.mpr
      ⟨r, List.mem_append_right _ (List.mem_cons_of_mem _ hrp), hc2⟩
  · intro r hrp hsome hact
    unfold actionsRun
    refine List.mem_map.mpr ⟨r, ?_, rfl⟩
    refine List.mem_filter.mpr ⟨List.mem_append_right _ (List.mem_cons_of_mem _ hrp), ?_⟩
    rw [hsome, hact]
    rfl
  · intro rulesAll hall
    unfold checkCorrelations checkCorrelationsList
    rw [List.filterMap_eq_nil_iff.mpr hall]
    rfl

/-- Witness for C6: a matching rule as the only registered rule. -/
theorem first_match_only_returned_witness :
    ((∀ r ∈ ([] : List CorrelationRule), ruleComposite [sampleA, sampleB] 1000 r = none)
     ∧ ruleComposite [sampleA, sampleB] 1000 sampleRule
         = some (compositeFor [sampleA, sampleB] 1000 sampleRule))
    ∧ (checkCorrelations ([] ++ sampleRule :: []) [sampleA, sampleB] 1000
         = some (compositeFor [sampleA, sampleB] 1000 sampleRule)
       ∧ (∀ r ∈ ([] : List CorrelationRule), ∀ c2,
            ruleComposite [sampleA, sampleB] 1000 r = some c2 →
            c2 ∈ checkCorrelationsList ([] ++ sampleRule :: []) [sampleA, sampleB] 1000)
       ∧ (∀ r ∈ ([] : List CorrelationRule),
            (ruleComposite [sampleA, sampleB] 1000 r).isSome = true →
            r.action.isSome = true →
            r.id ∈ actionsRun ([] ++ sampleRule :: []) [sampleA, sampleB] 1000)
       ∧ (∀ rulesAll : List CorrelationRule,
            (∀ r ∈ rulesAll, ruleComposite [sampleA, sampleB] 1000 r = none) →
            checkCorrelations rulesAll [sampleA, sampleB] 1000 = none)) := by
  have hrc : ruleComposite [sampleA, sampleB] 1000 sampleRule
      = some (compositeFor [sampleA, sampleB] 1000 sampleRule) := by
    unfold ruleComposite
    rw [if_pos (show correlateSignals [sampleA, sampleB] 1000 sampleRule.requiredSignals
          sampleRule.timeWindow = true from rfl),
        if_pos ?hle]
    case hle =>
      show sampleRule.minConfidence ≤ calculateAverageConfidence
        (getRelevantSignals [sampleA, sampleB] 1000 sampleRule.requiredSignals
          sampleRule.timeWindow)
      rw [show getRelevantSignals [sampleA, sampleB] 1000 sampleRule.requiredSignals
            sampleRule.timeWindow = [sampleA, sampleB] from rfl]
      norm_num [calculateAverageConfidence, sampleA, sampleB, sampleRule]
  exact ⟨⟨fun r hr => absurd hr (List.not_mem_nil r), hrc⟩,
    first_match_only_returned [sampleA, sampleB] 1000 [] [] sampleRule
      (compositeFor [sampleA, sampleB] 1000 sampleRule)
      (fun r hr => absurd hr (List.not_mem_nil r)) hrc⟩

/-- Helper for C5: `firesB` only reads the `lastAlerts` entry of the
rule's own id. -/
theorem firesB_congr (la la2 : LastAlerts) (now : Int) (sig : Signal)
    (r : AlertRule) (h : la r.id = la2 r.id) :
    firesB la now sig r = firesB la2 now sig r := by
  simp [firesB, h]

/-- Helper for C5/C10: `checkAlerts` leaves the `lastAlerts` entries of
ids not named by any evaluated rule unchanged. -/
theorem checkAlertsGo_snd_not_mem (now : Int) (sig : Signal) :
    ∀ (rules : List AlertRule) (la : LastAlerts) (k : String),
      (∀ r ∈ rules, r.id ≠ k) →
      (checkAlertsGo now sig rules la).2 k = la k := by
  intro rules
  induction rules with
  | nil => intro la k _; rfl
  | cons r rest ih =>
    intro la k hk
    have hrk : r.id ≠ k := hk r (List.mem_cons_self r rest)
    have hrest : ∀ r' ∈ rest, r'.id ≠ k := fun r' h' => hk r' (List.mem_cons_of_mem r h')
    by_cases he : r.enabled = false
    · simp only [checkAlertsGo, if_pos he]
      exact ih la k hrest
    · by_cases hcd : now - (la r.id).getD 0 < r.cooldown
      · simp only [checkAlertsGo, if_neg he, if_pos hcd]
        exact ih la k hrest
      · by_cases hcond : r.condition sig = true
        · simp only [checkAlertsGo, if_neg he, if_neg hcd, if_pos hcond]
          rw [ih _ k hrest]
          simp [Ne.symm hrk]
        · simp only [checkAlertsGo, if_neg he, if_neg hcd, if_neg hcond]
          exact ih la k hrest

/-- Helper for C5: the alerts returned by `checkAlerts` are exactly one
alert per enabled, off-cooldown rule whose condition holds, in rule
order, when rule ids are distinct. -/
theorem checkAlertsGo_fst_spec (now : Int) (sig : Signal) :
    ∀ (rules : List AlertRule) (la : LastAlerts),
      (rules.map (fun r => r.id)).Nodup →
      (checkAlertsGo now sig rules la).1 =
        rules.filterMap (fun r =>
          if firesB la now sig r = true then some (alertOf r sig now) else none) := by
  intro rules
  induction rules with
  | nil => intro la _; rfl
  | cons r rest ih =>
    intro la hnd
    have hrid : r.id ∉ rest.map (fun r => r.id) := (List.nodup_cons.mp hnd).1
    have hndr : (rest.map (fun r => r.id)).Nodup := (List.nodup_cons.mp hnd).2
    have hids : ∀ r' ∈ rest, r'.id ≠ r.id := by
      intro r' h' heq
      exact hrid (heq ▸ List.mem_map_of_mem (fun r => r.id) h')
    by_cases he : r.enabled = false
    · have hfb : firesB la now sig r = false := by simp [firesB, he]
      simp only [checkAlertsGo, if_pos he, List.filterMap_cons, hfb]
      exact ih la hndr
    · by_cases hcd : now - (la r.id).getD 0 < r.cooldown
      · have hfb : firesB la now sig r = false := by
          simp [firesB, hcd]
        simp only [checkAlertsGo, if_neg he, if_pos hcd, List.filterMap_cons, hfb]
        exact ih la hndr
      · by_cases hcond : r.condition sig = true
        · have he2 : r.enabled = true := by cases h : r.enabled <;> simp_all
          have hfb : firesB la now sig r = true := by
            simp [firesB, he2, hcd, hcond]
          simp only [checkAlertsGo, if_neg he, if_neg hcd, if_pos hcond,
            List.filterMap_cons, hfb]
          rw [ih _ hndr]
          refine congrArg _ (List.filterMap_congr ?_)
          intro r' h'
          have hagree : (fun k => if k = r.id then some now else la k) r'.id
              = la r'.id := by
            simp [hids r' h']
          rw [firesB_congr (fun k => if k = r.id then some now else la k) la
            now sig r' hagree]
        · have hfb : firesB la now sig r = false := by simp [firesB, hcond]
          simp only [checkAlertsGo, if_neg he, if_neg hcd, if_neg hcond,
            List.filterMap_cons, hfb]
          exact ih la hndr

/-- Helper for C5: after `checkAlerts`, the `lastFiredAt` entry of a
fired rule is `now` and that of an unfired rule is unchanged, when rule
ids are distinct. -/
theorem checkAlertsGo_snd_spec (now : Int) (sig : Signal) :
    ∀ (rules : List AlertRule) (la : LastAlerts),
      (rules.map (fun r => r.id)).Nodup →
      ∀ r ∈ rules,
        (firesB la now sig r = true →
          (checkAlertsGo now sig rules la).2 r.id = some now)
        ∧ (firesB la now sig r = false →
          (checkAlertsGo now sig rules la).2 r.id = la r.id) := by
  intro rules
  induction rules with
  | nil => intro la _ r hr; exact absurd hr (List.not_mem_nil r)
  | cons r0 rest ih =>
    intro la hnd r hr
    have hrid : r0.id ∉ rest.map (fun r => r.id) := (List.nodup_cons.mp hnd).1
    have hndr : (rest.map (fun r => r.id)).Nodup := (List.nodup_cons.mp hnd).2
    have hids : ∀ r' ∈ rest, r'.id ≠ r0.id := by
      intro r' h' heq
      exact hrid (heq ▸ List.mem_map_of_mem (fun r => r.id) h')
    rcases List.mem_cons.mp hr with hr0 | hrrest
    · subst hr0
      by_cases he : r.enabled = false
      · have hfb : firesB la now sig r = false := by simp [firesB, he]
        have hnm : (checkAlertsGo now sig rest la).2 r.id = la r.id :=
          checkAlertsGo_snd_not_mem now sig rest la r.id hids
        simp only [checkAlertsGo, if_pos he]
        exact ⟨fun h => absurd (hfb ▸ h) (by simp), fun _ => hnm⟩
      · by_cases hcd : now - (la r.id).getD 0 < r.cooldown
        · have hfb : firesB la now sig r = false := by simp [firesB, hcd]
          have hnm : (checkAlertsGo now sig rest la).2 r.id = la r.id :=
            checkAlertsGo_snd_not_mem now sig rest la r.id hids
          simp only [checkAlertsGo, if_neg he, if_pos hcd]
          exact ⟨fun h => absurd (hfb ▸ h) (by simp), fun _ => hnm⟩
        · by_cases hcond : r.condition sig = true
          · have he2 : r.enabled = true := by cases h : r.enabled <;> simp_all
            have hfb : firesB la now sig r = true := by
              simp [firesB, he2, hcd, hcond]
            simp only [checkAlertsGo, if_neg he, if_neg hcd, if_pos hcond]
            have hnm : (checkAlertsGo now sig rest
                (fun k => if k = r.id then some now else la k)).2 r.id
                = (fun k => if k = r.id then some now else la k) r.id :=
              checkAlertsGo_snd_not_mem now sig rest _ r.id hids
            refine ⟨fun _ => ?_, fun h => absurd (hfb ▸ h) (by simp)⟩
            rw [hnm]
            simp
          · have hfb : firesB la now sig r = false := by simp [firesB, hcond]
            have hnm : (checkAlertsGo now sig rest la).2 r.id = la r.id :=
              checkAlertsGo_snd_not_mem now sig rest la r.id hids
            simp only [checkAlertsGo, if_neg he, if_neg hcd, if_neg hcond]
            exact ⟨fun h => absurd (hfb ▸ h) (by simp), fun _ => hnm⟩
    · by_cases he : r0.enabled = false
      · simp only [checkAlertsGo, if_pos he]
        exact ih la hndr r hrrest
      · by_cases hcd : now - (la r0.id).getD 0 < r0.cooldown
        · simp only [checkAlertsGo, if_neg he, if_pos hcd]
          exact ih la hndr r hrrest
        · by_cases hcond : r0.condition sig = true
          · simp only [checkAlertsGo, if_neg he, if_neg hcd, if_pos hcond]
            have hagree : (fun k => if k = r0.id then some now else la k) r.id
                = la r.id := by simp [hids r hrrest]
            have := ih (fun k => if k = r0.id then some now else la k) hndr r hrrest
            rw [firesB_congr la (fun k => if k = r0.id then some now else la k)
              now sig r hagree.symm, hagree.symm]
            exact this
          · simp only [checkAlertsGo, if_neg he, if_neg hcd, if_neg hcond]
            exact ih la hndr r hrrest

/-- C5: per ingested signal, each enabled rule is skipped while
`now - lastFiredAt < cooldown` and otherwise contributes exactly one
alert when its predicate holds (all distinct firing rules are returned,
in rule order), with `lastFiredAt` set to `now` for fired rules and
unchanged for unfired ones; consequently, on a single-rule engine, two
qualifying signals within the cooldown yield exactly one alert and a
qualifying signal after the cooldown has elapsed yields a second. -/
theorem alert_cooldown_semantics (rules : List AlertRule) (la : LastAlerts)
    (now : Int) (sig : Signal)
    (hnd : (rules.map (fun r => r.id)).Nodup) :
    ((checkAlertsGo now sig rules la).1 =
        rules.filterMap (fun r =>
          if firesB la now sig r = true then some (alertOf r sig now) else none))
    ∧ (∀ r ∈ rules, firesB la now sig r = true →
        (checkAlertsGo now sig rules la).2 r.id = some now)
    ∧ (∀ r ∈ rules, firesB la now sig r = false →
        (checkAlertsGo now sig rules la).2 r.id = la r.id)
    ∧ (∀ (r : AlertRule) (t1 t2 : Int) (s1 s2 : Signal),
        r.enabled = true → r.condition s1 = true → r.condition s2 = true →
        r.cooldown ≤ t1 →
        (checkAlertsGo t1 s1 [r] (fun _ => none)).1 = [alertOf r s1 t1]
        ∧ (t2 - t1 < r.cooldown →
            (checkAlertsGo t2 s2 [r] (checkAlertsGo t1 s1 [r] (fun _ => none)).2).1 = [])
        ∧ (r.cooldown ≤ t2 - t1 →
            (checkAlertsGo t2 s2 [r] (checkAlertsGo t1 s1 [r] (fun _ => none)).2).1
              = [alertOf r s2 t2])) := by
  refine ⟨checkAlertsGo_fst_spec now sig rules la hnd,
    fun r hr => (checkAlertsGo_snd_spec now sig rules la hnd r hr).1,
    fun r hr => (checkAlertsGo_snd_spec now sig rules la hnd r hr).2,
    ?_⟩
  intro r t1 t2 s1 s2 he hc1 hc2 ht1
  have hne : ¬r.enabled = false := by simp [he]
  have hcd1 : ¬t1 - (((fun _ => none : LastAlerts) r.id).getD 0) < r.cooldown := by
    simp only [Option.getD_none]
    omega
  have hfire1 : checkAlertsGo t1 s1 [r] (fun _ => none)
      = ([alertOf r s1 t1], fun k => if k = r.id then some t1 else none) := by
    simp only [checkAlertsGo, if_neg hne, if_neg hcd1, if_pos hc1]
  have hla1 : ((checkAlertsGo t1 s1 [r] (fun _ => none)).2 r.id).getD 0 = t1 := by
    rw [hfire1]
    simp
  refine ⟨by rw [hfire1], ?_, ?_⟩
  · intro hlt
    rw [hfire1]
    simp [checkAlertsGo, he, hlt]
  · intro hge
    have hncd : ¬(t2 - t1 < r.cooldown) := by omega
    rw [hfire1]
    simp [checkAlertsGo, he, hc2, hncd]

/-- Witness for C5 on a single concrete rule. -/
theorem alert_cooldown_semantics_witness :
    (([sampleAlertRule].map (fun r => r.id)).Nodup)
    ∧ (((checkAlertsGo 50000 sampleLaunch [sampleAlertRule] (fun _ => none)).1 =
          [sampleAlertRule].filterMap (fun r =>
            if firesB (fun _ => none) 50000 sampleLaunch r = true
            then some (alertOf r sampleLaunch 50000) else none))
       ∧ (∀ r ∈ [sampleAlertRule],
            firesB (fun _ => none) 50000 sampleLaunch r = true →
            (checkAlertsGo 50000 sampleLaunch [sampleAlertRule] (fun _ => none)).2 r.id
              = some 50000)
       ∧ (∀ r ∈ [sampleAlertRule],
            firesB (fun _ => none) 50000 sampleLaunch r = false →
            (checkAlertsGo 50000 sampleLaunch [sampleAlertRule] (fun _ => none)).2 r.id
              = (fun _ => none : LastAlerts) r.id)
       ∧ (∀ (r : AlertRule) (t1 t2 : Int) (s1 s2 : Signal),
            r.enabled = true → r.condition s1 = true → r.condition s2 = true →
            r.cooldown ≤ t1 →
            (checkAlertsGo t1 s1 [r] (fun _ => none)).1 = [alertOf r s1 t1]
            ∧ (t2 - t1 < r.cooldown →
                (checkAlertsGo t2 s2 [r]
                  (checkAlertsGo t1 s1 [r] (fun _ => none)).2).1 = [])
            ∧ (r.cooldown ≤ t2 - t1 →
                (checkAlertsGo t2 s2 [r]
                  (checkAlertsGo t1 s1 [r] (fun _ => none)).2).1
                  = [alertOf r s2 t2]))) :=
  ⟨by decide,
    alert_cooldown_semantics [sampleAlertRule] (fun _ => none) 50000 sampleLaunch
      (by decide)⟩

/-- Helper for C10: an enabled rule appended after rules of other ids,
with no `lastAlerts` entry, fires when its condition holds and its
cooldown does not exceed `now` (the missing entry reads as 0). -/
theorem checkAlertsGo_appended_fires (now : Int) (sig : Signal) (r : AlertRule)
    (he : r.enabled = true) (hcond : r.condition sig = true) :
    ∀ (rules : List AlertRule) (la : LastAlerts),
      (∀ r' ∈ rules, r'.id ≠ r.id) → la r.id = none → r.cooldown ≤ now →
      alertOf r sig now ∈ (checkAlertsGo now sig (rules ++ [r]) la).1 := by
  intro rules
  induction rules with
  | nil =>
    intro la _ hla hcd
    have hncd : ¬(now - (la r.id).getD 0 < r.cooldown) := by
      rw [hla]
      simp only [Option.getD_none]
      omega
    simp [checkAlertsGo, he, hcond, hncd]
  | cons r0 rest ih =>
    intro la hne hla hcd
    have hr0 : r0.id ≠ r.id := hne r0 (List.mem_cons_self r0 rest)
    have hrest : ∀ r' ∈ rest, r'.id ≠ r.id :=
      fun r' h' => hne r' (List.mem_cons_of_mem r0 h')
    by_cases he0 : r0.enabled = false
    · simp only [List.cons_append, checkAlertsGo, if_pos he0]
      exact ih la hrest hla hcd
    · by_cases hcd0 : now - (la r0.id).getD 0 < r0.cooldown
      · simp only [List.cons_append, checkAlertsGo, if_neg he0, if_pos hcd0]
        exact ih la hrest hla hcd
      · by_cases hcond0 : r0.condition sig = true
        · simp only [List.cons_append, checkAlertsGo, if_neg he0, if_neg hcd0,
            if_pos hcond0]
          refine List.mem_cons_of_mem _ ?_
          refine ih _ hrest ?_ hcd
          simp [Ne.symm hr0, hla]
        · simp only [List.cons_append, checkAlertsGo, if_neg he0, if_neg hcd0,
            if_neg hcond0]
          exact ih la hrest hla hcd

/-- C10: `removeAlertRule(id)` removes exactly the rules with that id
and deletes that id's cooldown entry, leaving the other rules, the
other cooldown entries, the signal history and the history bound
unchanged; consequently a rule re-added under the same id is not
suppressed by the removed rule's previous cooldown and fires
immediately on a qualifying signal (once `cooldown ≤ now`). -/
theorem remove_alert_rule_frame (st : AnalyticsState) (rid : String) :
    (∀ r ∈ (removeAlertRule st rid).alertRules, r ∈ st.alertRules ∧ r.id ≠ rid)
    ∧ (∀ r ∈ st.alertRules, r.id ≠ rid → r ∈ (removeAlertRule st rid).alertRules)
    ∧ (removeAlertRule st rid).lastAlerts rid = none
    ∧ (∀ k, k ≠ rid → (removeAlertRule st rid).lastAlerts k = st.lastAlerts k)
    ∧ (removeAlertRule st rid).signals = st.signals
    ∧ (removeAlertRule st rid).maxSignals = st.maxSignals
    ∧ (∀ (r : AlertRule) (sig : Signal) (now : Int),
        r.id = rid → r.enabled = true → r.condition sig = true → r.cooldown ≤ now →
        alertOf r sig now ∈
          (checkAlertsGo now sig
            (addAlertRule (removeAlertRule st rid) r).alertRules
            (addAlertRule (removeAlertRule st rid) r).lastAlerts).1) := by
  have hmem : ∀ r ∈ (removeAlertRule st rid).alertRules,
      r ∈ st.alertRules ∧ r.id ≠ rid := by
    intro r hr
    have := List.mem_filter.mp hr
    exact ⟨this.1, of_decide_eq_true this.2⟩
  refine ⟨hmem, ?_, ?_, ?_, rfl, rfl, ?_⟩
  · intro r hr hne
    exact List.mem_filter.mpr ⟨hr, decide_eq_true hne⟩
  · simp [removeAlertRule]
  · intro k hk
    simp [removeAlertRule, hk]
  · intro r sig now hid he hcond hcd
    refine checkAlertsGo_appended_fires now sig r he hcond
      (removeAlertRule st rid).alertRules (removeAlertRule st rid).lastAlerts
      ?_ ?_ hcd
    · intro r' h'
      rw [hid]
      exact (hmem r' h').2
    · rw [hid]
      simp [removeAlertRule]

/-- Witness for C10: remove the rule with a hot cooldown entry, re-add
it, and observe it fire at once. -/
theorem remove_alert_rule_frame_witness :
    (sampleAlertRule.id = "a1" ∧ sampleAlertRule.enabled = true
     ∧ sampleAlertRule.condition sampleLaunch = true
     ∧ sampleAlertRule.cooldown ≤ 1000000)
    ∧ alertOf sampleAlertRule sampleLaunch 1000000 ∈
        (checkAlertsGo 1000000 sampleLaunch
          (addAlertRule (removeAlertRule sampleAnalytics "a1") sampleAlertRule).alertRules
          (addAlertRule (removeAlertRule sampleAnalytics "a1") sampleAlertRule).lastAlerts).1 :=
  ⟨⟨rfl, rfl, by decide, by decide⟩,
    (remove_alert_rule_frame sampleAnalytics "a1").2.2.2.2.2.2 sampleAlertRule
      sampleLaunch 1000000 rfl rfl (by decide) (by decide)⟩

/-- C8: a metrics snapshot over a history with no signal inside the
window (in particular over an empty history) reports zero totals, zero
average confidence, zero rates, an all-zero confidence distribution, no
top patterns, the current time as both ends of the time range, and zero
per-key counts — every field is well defined and no division by zero
occurs. -/
theorem metrics_empty_window (signals : List Signal) (now : Int)
    (tw : Option Int)
    (h : ∀ s ∈ signals, ¬(now - s.timestamp ≤ windowMsOf tw)) :
    (getMetrics signals now tw).totalSignals = 0
    ∧ (getMetrics signals now tw).averageConfidence = 0
    ∧ (getMetrics signals now tw).signalsPerHour = 0
    ∧ (getMetrics signals now tw).signalRate = 0
    ∧ (getMetrics signals now tw).averageSignalRate = 0
    ∧ (getMetrics signals now tw).dist = { low := 0, medium := 0, high := 0 }
    ∧ (getMetrics signals now tw).topPatterns = []
    ∧ (getMetrics signals now tw).timeRangeStart = now
    ∧ (getMetrics signals now tw).timeRangeEnd = now
    ∧ (∀ k, (getMetrics signals now tw).signalsByType k = 0)
    ∧ (∀ k, (getMetrics signals now tw).signalsByAgent k = 0)
    ∧ (∀ k, (getMetrics signals now tw).signalsBySource k = 0) := by
  have hrel : relevantWithin signals now (windowMsOf tw) = [] := by
    unfold relevantWithin
    rw [List.filter_eq_nil_iff]
    intro s hs
    simpa using h s hs
  refine ⟨?_, ?_, ?_, ?_, ?_, ?_, ?_, ?_, ?_, ?_, ?_, ?_⟩ <;>
    simp [getMetrics, hrel, initAccum, dedupFirst, sortByCountDesc]

/-- Witness for C8: one far-away signal outside the default window. -/
theorem metrics_empty_window_witness :
    (∀ s ∈ [sampleOld], ¬((1000000000 : Int) - s.timestamp ≤ windowMsOf none))
    ∧ ((getMetrics [sampleOld] 1000000000 none).totalSignals = 0
       ∧ (getMetrics [sampleOld] 1000000000 none).averageConfidence = 0
       ∧ (getMetrics [sampleOld] 1000000000 none).signalsPerHour = 0
       ∧ (getMetrics [sampleOld] 1000000000 none).signalRate = 0
       ∧ (getMetrics [sampleOld] 1000000000 none).averageSignalRate = 0
       ∧ (getMetrics [sampleOld] 1000000000 none).dist
           = { low := 0, medium := 0, high := 0 }
       ∧ (getMetrics [sampleOld] 1000000000 none).topPatterns = []
       ∧ (getMetrics [sampleOld] 1000000000 none).timeRangeStart = 1000000000
       ∧ (getMetrics [sampleOld] 1000000000 none).timeRangeEnd = 1000000000
       ∧ (∀ k, (getMetrics [sampleOld] 1000000000 none).signalsByType k = 0)
       ∧ (∀ k, (getMetrics [sampleOld] 1000000000 none).signalsByAgent k = 0)
       ∧ (∀ k, (getMetrics [sampleOld] 1000000000 none).signalsBySource k = 0)) :=
  ⟨by decide, metrics_empty_window [sampleOld] 1000000000 none (by decide)⟩

/-- Helper for C9: one metrics iteration bumps the per-type counter at
the signal's type. -/
theorem metricsStep_byType (acc : MetricsAccum) (s : Signal) :
    (metricsStep acc s).signalsByType = bump acc.signalsByType s.type := by
  cases h : s.confidence <;> simp [metricsStep, h]

/-- Helper for C9: one metrics iteration bumps the per-source counter at
the signal's source. -/
theorem metricsStep_bySource (acc : MetricsAccum) (s : Signal) :
    (metricsStep acc s).signalsBySource = bump acc.signalsBySource s.source := by
  cases h : s.confidence <;> simp [metricsStep, h]

/-- Helper for C9: one metrics iteration bumps the per-agent counter at
the signal's agent key. -/
theorem metricsStep_byAgent (acc : MetricsAccum) (s : Signal) :
    (metricsStep acc s).signalsByAgent = bump acc.signalsByAgent (agentOf s) := by
  cases h : s.confidence <;> simp [metricsStep, h]

/-- Helper for C9: one metrics iteration adds the signal's confidence
(0 when unscored) to the running confidence sum. -/
theorem metricsStep_totalConfidence (acc : MetricsAccum) (s : Signal) :
    (metricsStep acc s).totalConfidence
      = acc.totalConfidence + s.confidence.getD 0 := by
  cases h : s.confidence <;> simp [metricsStep, h]

/-- Helper for C9: one metrics iteration counts the signal in the
scored-signal count exactly when it carries a confidence. -/
theorem metricsStep_confidenceCount (acc : MetricsAccum) (s : Signal) :
    (metricsStep acc s).confidenceCount
      = acc.confidenceCount + (if s.confidence.isSome then 1 else 0) := by
  cases h : s.confidence <;> simp [metricsStep, h]

/-- Helper for C9: one metrics iteration adds the signal to exactly one
distribution bucket when scored and to none when unscored. -/
theorem metricsStep_dist_sum (acc : MetricsAccum) (s : Signal) :
    (metricsStep acc s).dist.low + (metricsStep acc s).dist.medium
      + (metricsStep acc s).dist.high
    = acc.dist.low + acc.dist.medium + acc.dist.high
      + (if s.confidence.isSome then 1 else 0) := by
  cases h : s.confidence with
  | none => simp [metricsStep, h]
  | some c =>
    by_cases h8 : (0.8 : ℚ) ≤ c
    · simp [metricsStep, h, h8]
      omega
    · by_cases h7 : (0.7 : ℚ) ≤ c
      · simp [metricsStep, h, h8, h7]
        omega
      · simp [metricsStep, h, h8, h7]
        omega

/-- Helper for C9: the per-type counter after the metrics fold counts
the signals of each type, scored or not. -/
theorem foldl_metricsStep_byType (k : String) :
    ∀ (l : List Signal) (acc : MetricsAccum),
      (List.foldl metricsStep acc l).signalsByType k
        = acc.signalsByType k + (l.filter (fun s => s.type = k)).length := by
  intro l
  induction l with
  | nil => intro acc; simp
  | cons s l ih =>
    intro acc
    rw [List.foldl_cons, ih, metricsStep_byType]
    by_cases h : s.type = k
    · subst h
      simp [bump, List.filter_cons]
      omega
    · simp [bump, List.filter_cons, h, Ne.symm h]

/-- Helper for C9: the per-source counter after the metrics fold counts
the signals of each source, scored or not. -/
theorem foldl_metricsStep_bySource (k : String) :
    ∀ (l : List Signal) (acc : MetricsAccum),
      (List.foldl metricsStep acc l).signalsBySource k
        = acc.signalsBySource k + (l.filter (fun s => s.source = k)).length := by
  intro l
  induction l with
  | nil => intro acc; simp
  | cons s l ih =>
    intro acc
    rw [List.foldl_cons, ih, metricsStep_bySource]
    by_cases h : s.source = k
    · subst h
      simp [bump, List.filter_cons]
      omega
    · simp [bump, List.filter_cons, h, Ne.symm h]

/-- Helper for C9: the per-agent counter after the metrics fold counts
the signals of each agent key, scored or not. -/
theorem foldl_metricsStep_byAgent (k : String) :
    ∀ (l : List Signal) (acc : MetricsAccum),
      (List.foldl metricsStep acc l).signalsByAgent k
        = acc.signalsByAgent k + (l.filter (fun s => agentOf s = k)).length := by
  intro l
  induction l with
  | nil => intro acc; simp
  | cons s l ih =>
    intro acc
    rw [List.foldl_cons, ih, metricsStep_byAgent]
    by_cases h : agentOf s = k
    · rw [← h]
      simp [bump, List.filter_cons]
      omega
    · simp [bump, List.filter_cons, h, Ne.symm h]

/-- Helper for C9: the confidence sum after the metrics fold is the sum
of the scored signals' confidences. -/
theorem foldl_metricsStep_totalConfidence :
    ∀ (l : List Signal) (acc : MetricsAccum),
      (List.foldl metricsStep acc l).totalConfidence
        = acc.totalConfidence
          + ((l.filter (fun s => s.confidence.isSome)).map
              (fun s => s.confidence.getD 0)).sum := by
  intro l
  induction l with
  | nil => intro acc; simp
  | cons s l ih =>
    intro acc
    rw [List.foldl_cons, ih, metricsStep_totalConfidence]
    cases h : s.confidence with
    | none => simp [List.filter_cons, h]
    | some c =>
      simp [List.filter_cons, h]
      ring

/-- Helper for C9: the scored count after the metrics fold is the number
of signals carrying a confidence. -/
theorem foldl_metricsStep_confidenceCount :
    ∀ (l : List Signal) (acc : MetricsAccum),
      (List.foldl metricsStep acc l).confidenceCount
        = acc.confidenceCount + (l.filter (fun s => s.confidence.isSome)).length := by
  intro l
  induction l with
  | nil => intro acc; simp
  | cons s l ih =>
    intro acc
    rw [List.foldl_cons, ih, metricsStep_confidenceCount]
    cases h : s.confidence with
    | none => simp [List.filter_cons, h]
    | some c =>
      simp [List.filter_cons, h]
      omega

/-- Helper for C9: the distribution buckets after the metrics fold sum
to the number of scored signals. -/
theorem foldl_metricsStep_dist_sum :
    ∀ (l : List Signal) (acc : MetricsAccum),
      (List.foldl metricsStep acc l).dist.low
        + (List.foldl metricsStep acc l).dist.medium
        + (List.foldl metricsStep acc l).dist.high
      = acc.dist.low + acc.dist.medium + acc.dist.high
        + (l.filter (fun s => s.confidence.isSome)).length := by
  intro l
  induction l with
  | nil => intro acc; simp
  | cons s l ih =>
    intro acc
    rw [List.foldl_cons, ih, metricsStep_dist_sum]
    cases h : s.confidence with
    | none => simp [List.filter_cons, h]
    | some c =>
      simp [List.filter_cons, h]
      omega

/-- C9: in every metrics snapshot, unscored signals count toward
`totalSignals` and toward the per-type, per-source and per-agent
counts, but are excluded from `averageConfidence` (the mean over the
scored signals only) and from the confidence distribution, whose
buckets sum to the number of scored signals in the window — at most,
and possibly fewer than, `totalSignals`. -/
theorem metrics_unscored_counting (signals : List Signal) (now : Int)
    (tw : Option Int) :
    (getMetrics signals now tw).totalSignals
      = (relevantWithin signals now (windowMsOf tw)).length
    ∧ (∀ k, (getMetrics signals now tw).signalsByType k
        = ((relevantWithin signals now (windowMsOf tw)).filter
            (fun s => s.type = k)).length)
    ∧ (∀ k, (getMetrics signals now tw).signalsBySource k
        = ((relevantWithin signals now (windowMsOf tw)).filter
            (fun s => s.source = k)).length)
    ∧ (∀ k, (getMetrics signals now tw).signalsByAgent k
        = ((relevantWithin signals now (windowMsOf tw)).filter
            (fun s => agentOf s = k)).length)
    ∧ (getMetrics signals now tw).dist.low
        + (getMetrics signals now tw).dist.medium
        + (getMetrics signals now tw).dist.high
      = ((relevantWithin signals now (windowMsOf tw)).filter
          (fun s => s.confidence.isSome)).length
    ∧ (getMetrics signals now tw).averageConfidence
      = (if ((relevantWithin signals now (windowMsOf tw)).filter
              (fun s => s.confidence.isSome)).length = 0 then 0
         else (((relevantWithin signals now (windowMsOf tw)).filter
                (fun s => s.confidence.isSome)).map
                  (fun s => s.confidence.getD 0)).sum
              / ((((relevantWithin signals now (windowMsOf tw)).filter
                    (fun s => s.confidence.isSome)).length : ℚ)))
    ∧ ((relevantWithin signals now (windowMsOf tw)).filter
        (fun s => s.confidence.isSome)).length
      ≤ (relevantWithin signals now (windowMsOf tw)).length
    ∧ ((relevantWithin [sampleA, sampleUnscored] (1000 : Int) (windowMsOf none)).filter
        (fun s => s.confidence.isSome)).length
      < (relevantWithin [sampleA, sampleUnscored] (1000 : Int) (windowMsOf none)).length := by
  refine ⟨?_, ?_, ?_, ?_, ?_, ?_, List.length_filter_le _ _, by decide⟩
  · simp [getMetrics]
  · intro k
    have := foldl_metricsStep_byType k (relevantWithin signals now (windowMsOf tw))
      initAccum
    simp [getMetrics]
    simpa [initAccum] using this
  · intro k
    have := foldl_metricsStep_bySource k (relevantWithin signals now (windowMsOf tw))
      initAccum
    simp [getMetrics]
    simpa [initAccum] using this
  · intro k
    have := foldl_metricsStep_byAgent k (relevantWithin signals now (windowMsOf tw))
      initAccum
    simp [getMetrics]
    simpa [initAccum] using this
  · have := foldl_metricsStep_dist_sum (relevantWithin signals now (windowMsOf tw))
      initAccum
    simp [getMetrics]
    simpa [initAccum] using this
  · have hcnt : (List.foldl metricsStep initAccum
        (relevantWithin signals now (windowMsOf tw))).confidenceCount
        = ((relevantWithin signals now (windowMsOf tw)).filter
            (fun s => s.confidence.isSome)).length := by
      rw [foldl_metricsStep_confidenceCount]
      exact Nat.zero_add _
    have htot : (List.foldl metricsStep initAccum
        (relevantWithin signals now (windowMsOf tw))).totalConfidence
        = (((relevantWithin signals now (windowMsOf tw)).filter
            (fun s => s.confidence.isSome)).map
              (fun s => s.confidence.getD 0)).sum := by
      rw [foldl_metricsStep_totalConfidence]
      exact zero_add _
    simp only [getMetrics, hcnt, htot]
    by_cases h0 : ((relevantWithin signals now (windowMsOf tw)).filter
        (fun s => s.confidence.isSome)).length = 0
    · simp [h0]
    · simp [h0, Nat.pos_of_ne_zero h0]

end Eremos
